import Mathlib

/-!
Verification development for the resumable streaming ingestion pipeline
(`extract_reddit_zst_to_db.py` together with `utils/file_util.py`,
`utils/process.py` and `utils/progress.py`).

The Python source is shallowly embedded: pure fragments become Lean
functions, fallible constructors return `Except`, machine behaviour that
raises an exception is an `Except.error` / `Option.none` result, and the
external collaborators (filesystem `os.stat`, the zstd decompressor, the
record sink, the Reddit fetcher) are parameters or are out of scope per the
design boundary.  Integers are unbounded in Python, so counters are `Nat`.
-/

/-! ## String helpers

`os.path.split(path)[1]` keeps the text after the last separator, and the
Python substring test `needle in hay` is containment of a contiguous
sublist.  Both are modelled on `List Char`. -/

/-- Model of `os.path.split(input_path)[1]`: the characters after the last
slash (POSIX separator). -/
def afterLastSlash (cs : List Char) : List Char :=
  cs.foldl (fun acc c => if c = '/' then [] else acc ++ [c]) []

/-- Python substring containment `needle in hay` on character lists. -/
def listContainsSub (hay needle : List Char) : Bool :=
  (List.range (hay.length + 1)).any fun i => needle.isPrefixOf (hay.drop i)

/-- Python `needle in hay` for strings. -/
def strContainsSub (hay needle : String) : Bool :=
  listContainsSub hay.data needle.data

/-- Model of Python `str.lower()` (ASCII case folding suffices for the
configured filter values and subreddit names this pipeline compares). -/
def strLower (s : String) : String :=
  String.mk (s.data.map Char.toLower)

/-! ## Task Record: `FileConfig` (`utils/file_util.py`, lines 50-105) -/

/-- Enumeration `FileType` from `utils/file_util.py`. -/
inductive FileType where
  | COMMENT
  | SUBMISSION
deriving DecidableEq

/-- The Task Record: one `FileConfig` instance per discovered input file,
with the attribute set written by `FileConfig.__init__`. -/
structure FileConfig where
  input_path : String
  output_path : Option String
  file_size : Nat
  complete : Bool
  bytes_processed : Nat
  lines_processed : Nat
  error_message : Option String
  error_lines : Nat
  lines_matched : Nat
  file_type : FileType
deriving DecidableEq

/-- Embedding of `FileConfig.__init__` (file_util.py lines 66-96).  The
filesystem is abstracted by `stat : String → Nat` standing for
`os.stat(input_path).st_size`; the `raise ValueError` branch for an unknown
file-name prefix becomes `Except.error`. -/
def mkFileConfig (stat : String → Nat) (input_path : String)
    (output_path : Option String) (complete : Bool)
    (lines_processed error_lines lines_matched : Nat) :
    Except String FileConfig :=
  let size := stat input_path
  let file_name := afterLastSlash input_path.data
  if List.isPrefixOf ['R', 'S'] file_name then
    Except.ok
      { input_path := input_path
        output_path := output_path
        file_size := size
        complete := complete
        bytes_processed := if complete then size else 0
        lines_processed := if complete then lines_processed else 0
        error_message := none
        error_lines := error_lines
        lines_matched := lines_matched
        file_type := FileType.SUBMISSION }
  else if List.isPrefixOf ['R', 'C'] file_name then
    Except.ok
      { input_path := input_path
        output_path := output_path
        file_size := size
        complete := complete
        bytes_processed := if complete then size else 0
        lines_processed := if complete then lines_processed else 0
        error_message := none
        error_lines := error_lines
        lines_matched := lines_matched
        file_type := FileType.COMMENT }
  else
    Except.error ("Unknown working file type: " ++ input_path)

/-! ## Checkpoint Store (`utils/progress.py`) -/

/-- One element of the `files` array in `status.json`:
`[input_path, output_path, complete, lines_processed, error_lines,
lines_matched]` (progress.py line 49). -/
structure SavedEntry where
  input_path : String
  output_path : Option String
  complete : Bool
  lines_processed : Nat
  error_lines : Nat
  lines_matched : Nat
deriving DecidableEq

/-- The JSON document written by `save_file_list` (progress.py lines 58-65). -/
structure StatusDoc where
  args : String
  type : String
  completed_prefixes : List String
  files : List SavedEntry
deriving DecidableEq

/-- Serialization of one `FileConfig` (progress.py line 49). -/
def saveEntry (f : FileConfig) : SavedEntry :=
  { input_path := f.input_path
    output_path := f.output_path
    complete := f.complete
    lines_processed := f.lines_processed
    error_lines := f.error_lines
    lines_matched := f.lines_matched }

/-- Embedding of `save_file_list` (progress.py lines 24-65): builds the JSON
document (directory creation and the physical write are filesystem side
effects outside the model).  A missing `completed_prefixes` argument is
`none`, mirroring the `None` default; a present one is sorted. -/
def save_file_list (input_files : List FileConfig) (arg_string script_type : String)
    (completed_prefixes : Option (List String)) : StatusDoc :=
  { args := arg_string
    type := script_type
    completed_prefixes :=
      match completed_prefixes with
      | none => []
      | some ps => List.insertionSort (fun a b : String => a < b ∨ a = b) ps
    files := input_files.map saveEntry }

/-- The reconstruction loop of `load_file_list` (progress.py lines 92-96):
each saved entry is fed back through `FileConfig.__init__`; a `ValueError`
from the constructor propagates (modelled as `Except.error`). -/
def loadEntries (stat : String → Nat) : List SavedEntry → Except String (List FileConfig)
  | [] => Except.ok []
  | e :: es =>
    match mkFileConfig stat e.input_path e.output_path e.complete
        e.lines_processed e.error_lines e.lines_matched with
    | Except.error msg => Except.error msg
    | Except.ok f =>
      match loadEntries stat es with
      | Except.error msg => Except.error msg
      | Except.ok fs => Except.ok (f :: fs)

/-- Embedding of `load_file_list` (progress.py lines 68-107).  `none` for
`doc` is the absent-file branch, returning `(None, None, None, set())`. -/
def load_file_list (stat : String → Nat) (doc : Option StatusDoc) :
    Except String (Option (List FileConfig) × Option String × Option String × List String) :=
  match doc with
  | none => Except.ok (none, none, none, [])
  | some d =>
    match loadEntries stat d.files with
    | Except.error msg => Except.error msg
    | Except.ok fs => Except.ok (some fs, some d.args, some d.type, d.completed_prefixes)

/-! ## Filter/Match Engine (`utils/process.py`, lines 106-203) -/

/-- The single-value short-circuit setup of `process_file` (process.py lines
133-135): `value = min(values)` when exactly one value is configured, else
`value = None`.  `values` models the Python set as its element list. -/
def singleValue (values : List String) : Option String :=
  match values with
  | [v] => some v
  | _ => none

/-- The per-line predicate of `process_file` (process.py lines 141-148):
`matched` is set only under `value is not None`, via
`value == observed or value in observed`. -/
def line_matched (values : List String) (observed : String) : Bool :=
  match singleValue values with
  | some value => value == observed || strContainsSub observed value
  | none => false

/-- Modelled from the spec: the predicate the specification describes, that
the (case-normalized) field value equals or contains as a substring some
member of the configured value set.  Kept separate from `line_matched`
so the two can be compared. -/
def spec_line_matched (values : List String) (observed : String) : Bool :=
  values.any fun value => value == observed || strContainsSub observed value

/-- Outcome of the per-line body of `process_file` for one yielded line.
`ok observed pos` is a line whose `json.loads` and `obj[field].lower()`
succeed with field value `observed`; `soft pos` is a failure caught by the
inner handler `except (KeyError, json.JSONDecodeError, AttributeError)`;
`hard msg pos` is an exception escaping that tuple (for example `TypeError`
from `obj[field]` when the line is valid JSON but not an object, as for the
line `3`), which propagates to the outer handler.  `pos` is the
`file_bytes_processed` value (`file_handle.tell()`) yielded with the line. -/
inductive ParsedLine where
  | ok (observed : String) (pos : Nat)
  | soft (pos : Nat)
  | hard (msg : String) (pos : Nat)
deriving DecidableEq

/-- Position carried by a parsed line. -/
def ParsedLine.pos : ParsedLine → Nat
  | .ok _ p => p
  | .soft p => p
  | .hard _ p => p

/-- The processing loop of `process_file` (process.py lines 137-203) run on
the sequence of already-parsed lines, returning the final record and the
list of snapshots `queue.put` pushed during the loop and at the end.  The
record sink and the comment fetcher are external collaborators whose calls
are modelled as infallible and effect-free on the Task Record (batching on
lines 170-178 touches only the sink).  Counter updates, the periodic
1,000,000-line push, the completion epilogue and the outer exception
handler follow the source. -/
def process_lines (values : List String) (file : FileConfig) :
    List ParsedLine → FileConfig × List FileConfig
  | [] =>
    let f := { file with complete := true, bytes_processed := file.file_size }
    (f, [f])
  | ParsedLine.hard msg _ :: _ =>
    let f := { file with error_message := some msg }
    (f, [f])
  | ParsedLine.ok observed pos :: rest =>
    let f1 :=
      if line_matched values (strLower observed) then
        { file with lines_matched := file.lines_matched + 1 }
      else file
    let f2 := { f1 with lines_processed := f1.lines_processed + 1 }
    if f2.lines_processed % 1000000 = 0 then
      let f3 := { f2 with bytes_processed := pos }
      let r := process_lines values f3 rest
      (r.1, f3 :: r.2)
    else
      process_lines values f2 rest
  | ParsedLine.soft pos :: rest =>
    let f1 := { file with error_lines := file.error_lines + 1 }
    let f2 := { f1 with lines_processed := f1.lines_processed + 1 }
    if f2.lines_processed % 1000000 = 0 then
      let f3 := { f2 with bytes_processed := pos }
      let r := process_lines values f3 rest
      (r.1, f3 :: r.2)
    else
      process_lines values f2 rest

/-- Embedding of `process_file` (process.py lines 106-203): the initial
`queue.put(file)` on line 125, then the loop, whose last push (line 203)
is appended by `process_lines`. -/
def process_file (values : List String) (file : FileConfig)
    (lines : List ParsedLine) : FileConfig × List FileConfig :=
  let r := process_lines values file lines
  (r.1, file :: r.2)

/-! ## Worker Pool Coordinator (`ingest/extract_reddit_zst_to_db.py`) -/

/-- The dispatch partition of the main script (lines 142-151): iterate the
task list sorted by file size descending and keep the records whose
`complete` flag is false; exactly these are handed to `pool.starmap_async`.
-/
def filesToProcess (input_files : List FileConfig) : List FileConfig :=
  (List.insertionSort (fun a b : FileConfig => b.file_size ≤ a.file_size)
    input_files).filter fun f => !f.complete

/-- Outcome of the startup control flow: either `sys.exit code` or falling
through to the processing phase. -/
inductive StartupOutcome where
  | exited (code : Nat)
  | proceeded
deriving DecidableEq

/-- Python truthiness test `saved and saved != current` on an optional
string: `None` and the empty string are falsy. -/
def truthyAndNe (saved : Option String) (current : String) : Bool :=
  match saved with
  | none => false
  | some s => !(s == "") && !(s == current)

/-- Embedding of the startup decision sequence of the main script (lines
104-136): fingerprint mismatch exits via `sys.exit(0)` (line 107), run-type
mismatch exits via `sys.exit(0)` (line 111), an absent checkpoint falls
back to the discovered list, and an empty task list exits via `sys.exit(0)`
(line 136); otherwise processing proceeds. -/
def startupExit (saved_arg_string : Option String) (arg_string : String)
    (saved_type : Option String) (script_type : String)
    (input_files : Option (List FileConfig)) (discovered : List FileConfig) :
    StartupOutcome :=
  if truthyAndNe saved_arg_string arg_string then StartupOutcome.exited 0
  else if truthyAndNe saved_type script_type then StartupOutcome.exited 0
  else
    let files := input_files.getD discovered
    if files.length = 0 then StartupOutcome.exited 0
    else StartupOutcome.proceeded

/-! ## Progress/ETA Estimator (`utils/file_util.py` `Queue`, main lines 216-236) -/

/-- The bounded FIFO `Queue` of `utils/file_util.py` (lines 238-278). -/
structure BoundedQueue (α : Type) where
  list : List α
  max_size : Nat
deriving DecidableEq

/-- Embedding of `Queue.put` (file_util.py lines 260-269): a full queue pops
its oldest element before appending. -/
def BoundedQueue.put {α : Type} (q : BoundedQueue α) (item : α) : BoundedQueue α :=
  if q.max_size ≤ q.list.length then
    { q with list := q.list.drop 1 ++ [item] }
  else
    { q with list := q.list ++ [item] }

/-- Embedding of `Queue.peek` (file_util.py lines 271-278). -/
def BoundedQueue.peek {α : Type} (q : BoundedQueue α) : Option α :=
  q.list.head?

/-- The smoothed throughput `int(sum(speed_queue.list) / len(speed_queue.list))`
of the main script (line 225); on nonneg integers Python truncation agrees
with `Nat` division, and an empty queue divides by zero just as the source
would. -/
def smoothedSpeed (speeds : List Nat) : Nat :=
  speeds.sum / speeds.length

/-- Embedding of the ETA computation on line 225 of the main script:
`seconds_left = int((total_bytes - total_bytes_processed) / int(sum/len))`.
Python raises `ZeroDivisionError` exactly when the truncated smoothed
throughput is zero, modelled as `Except.error`. -/
def etaSeconds (total_bytes total_bytes_processed : Nat) (speeds : List Nat) :
    Except String Nat :=
  if smoothedSpeed speeds = 0 then Except.error "ZeroDivisionError"
  else Except.ok ((total_bytes - total_bytes_processed) / smoothedSpeed speeds)

/-- One ETA step of the drain loop (main script lines 222-225): push the
instantaneous speed sample, then divide by the smoothed mean of the queue. -/
def etaStep (speed_queue : BoundedQueue Nat) (bytes_per_second : Nat)
    (total_bytes total_bytes_processed : Nat) :
    BoundedQueue Nat × Except String Nat :=
  let q := speed_queue.put bytes_per_second
  (q, etaSeconds total_bytes total_bytes_processed q.list)

/-! ## Streaming Decoder (`utils/file_util.py`, lines 149-203)

The decompressed byte stream handed out by the external zstd reader is
modelled as a `List Nat` of byte values, and decoded text as a `List Nat`
of Unicode code points.  Python's strict `bytes.decode()` is embedded as a
standalone UTF-8 decoder; `UnicodeDecodeError` / `UnicodeError` become
`Option.none`.  The `file_handle.tell()` positions yielded alongside each
line belong to the external compressed-file layer and are modelled
abstractly where a claim needs them (`ParsedLine.pos`). -/

/-- Unicode scalar values: the code points Python's strict UTF-8 codec
round-trips (below 0x110000 and outside the surrogate range). -/
def ValidScalar (c : Nat) : Prop :=
  c < 0x110000 ∧ (c < 0xD800 ∨ 0xE000 ≤ c)

instance (c : Nat) : Decidable (ValidScalar c) := by
  unfold ValidScalar; infer_instance

/-- A code-point sequence consisting of Unicode scalar values. -/
def ValidText (t : List Nat) : Prop := ∀ c ∈ t, ValidScalar c

instance (t : List Nat) : Decidable (ValidText t) :=
  List.decidableBAll _ t

/-- UTF-8 encoding of one scalar value. -/
def utf8EncodeChar (c : Nat) : List Nat :=
  if c < 0x80 then [c]
  else if c < 0x800 then [0xC0 + c / 0x40, 0x80 + c % 0x40]
  else if c < 0x10000 then
    [0xE0 + c / 0x1000, 0x80 + (c / 0x40) % 0x40, 0x80 + c % 0x40]
  else
    [0xF0 + c / 0x40000, 0x80 + (c / 0x1000) % 0x40,
     0x80 + (c / 0x40) % 0x40, 0x80 + c % 0x40]

/-- UTF-8 encoding of a code-point sequence. -/
def utf8Encode (t : List Nat) : List Nat :=
  (t.map utf8EncodeChar).flatten

/-- One step of strict UTF-8 decoding: the leading character and the
remaining bytes, or `none` on any malformed, truncated, overlong,
surrogate or out-of-range leading sequence, exactly the inputs Python's
`bytes.decode()` rejects. -/
def decodeOneChar : List Nat → Option (Nat × List Nat)
  | [] => none
  | b0 :: rest =>
    if b0 < 0x80 then some (b0, rest)
    else if b0 < 0xC2 then none
    else if b0 < 0xE0 then
      match rest with
      | b1 :: rest1 =>
        if 0x80 ≤ b1 ∧ b1 < 0xC0 then
          some ((b0 - 0xC0) * 0x40 + (b1 - 0x80), rest1)
        else none
      | [] => none
    else if b0 < 0xF0 then
      match rest with
      | b1 :: b2 :: rest2 =>
        if 0x80 ≤ b1 ∧ b1 < 0xC0 ∧ 0x80 ≤ b2 ∧ b2 < 0xC0 then
          let c := (b0 - 0xE0) * 0x1000 + (b1 - 0x80) * 0x40 + (b2 - 0x80)
          if c < 0x800 then none
          else if 0xD800 ≤ c ∧ c < 0xE000 then none
          else some (c, rest2)
        else none
      | _ => none
    else if b0 < 0xF5 then
      match rest with
      | b1 :: b2 :: b3 :: rest3 =>
        if 0x80 ≤ b1 ∧ b1 < 0xC0 ∧ 0x80 ≤ b2 ∧ b2 < 0xC0 ∧ 0x80 ≤ b3 ∧ b3 < 0xC0 then
          let c := (b0 - 0xF0) * 0x40000 + (b1 - 0x80) * 0x1000 +
            (b2 - 0x80) * 0x40 + (b3 - 0x80)
          if c < 0x10000 then none
          else if 0x110000 ≤ c then none
          else some (c, rest3)
        else none
      | _ => none
    else none

/-- Fuelled strict UTF-8 decoding of a whole byte string.  The fuel only
serves structural recursion; `decodeOneChar` always consumes at least one
byte, so fuel at least the byte count never runs out (proved below). -/
def utf8DecodeAux : Nat → List Nat → Option (List Nat)
  | _, [] => some []
  | 0, _ :: _ => none
  | fuel + 1, bs =>
    match decodeOneChar bs with
    | none => none
    | some (c, rest) => (utf8DecodeAux fuel rest).map (c :: ·)

/-- Model of Python's strict `bytes.decode()`: all code points of the byte
string, or `none` where Python raises `UnicodeDecodeError`. -/
def utf8Decode (bs : List Nat) : Option (List Nat) :=
  utf8DecodeAux bs.length bs

/-- Embedding of `FileHandle.read_and_decode` (file_util.py lines 149-176).
The stateful `reader.read(chunk_size)` becomes `List.take`/`List.drop` on
the remaining decompressed stream, which is returned alongside the decoded
text; `bytes_read += chunk_size` is taken verbatim from the source (the
increment counts requested, not returned, bytes).  The `raise UnicodeError`
once `bytes_read > max_window_size` becomes `none`.  For `chunk_size = 0`
with an undecodable accumulation the source would recurse without bound
(its only call site passes `2**27`); the model returns the decode failure
in that unreachable case. -/
def read_and_decode (chunk_size max_window_size : Nat)
    (stream previous_chunk : List Nat) (bytes_read : Nat) :
    Option (List Nat × List Nat) :=
  let chunk := previous_chunk ++ stream.take chunk_size
  match utf8Decode chunk with
  | some text => some (text, stream.drop chunk_size)
  | none =>
    if max_window_size < bytes_read + chunk_size then none
    else if chunk_size = 0 then none
    else
      read_and_decode chunk_size max_window_size (stream.drop chunk_size)
        chunk (bytes_read + chunk_size)
termination_by max_window_size + 1 - bytes_read
decreasing_by omega

/-- Splitting decoded text on newline, as Python `str.split("\n")`: the
result is never empty and keeps empty segments. -/
def splitNl : List Nat → List (List Nat)
  | [] => [[]]
  | c :: cs =>
    if c = 10 then [] :: splitNl cs
    else
      match splitNl cs with
      | [] => [[c]]
      | p :: ps => (c :: p) :: ps

/-- The `while True` loop of `FileHandle.yield_lines` (file_util.py lines
193-203): decode a block, stop on an empty block, split `buffer + chunk` on
newline, yield every segment but the last and retain the last as the next
buffer.  Termination is by the stream shrinking: a nonempty decoded block
consumes at least one byte (proved below as `read_and_decode_consumes`);
the explicit length guard records that argument and is never taken. -/
def yieldLinesLoop (chunk_size max_window_size : Nat)
    (stream buffer : List Nat) : Option (List (List Nat)) :=
  match read_and_decode chunk_size max_window_size stream [] 0 with
  | none => none
  | some (chunk, rest) =>
    if chunk = [] then some []
    else
      let lines := splitNl (buffer ++ chunk)
      if _h : rest.length < stream.length then
        match yieldLinesLoop chunk_size max_window_size rest (lines.getLastD []) with
        | none => none
        | some more => some (lines.dropLast ++ more)
      else none
termination_by stream.length

/-- Embedding of `FileHandle.yield_lines` (file_util.py lines 178-203),
returning the yielded lines in order (`none` when the decode window is
exceeded, where the generator raises).  The source runs this with
`chunk_size = 2**27` and `max_window_size = 2**30`. -/
def yield_lines (chunk_size max_window_size : Nat) (stream : List Nat) :
    Option (List (List Nat)) :=
  yieldLinesLoop chunk_size max_window_size stream []

/-! ## Auxiliary definitions used by the statements below -/

deriving instance DecidableEq for Except

/-- Test for a line whose exception escapes the inner handler. -/
def ParsedLine.isHard : ParsedLine → Bool
  | .hard _ _ => true
  | _ => false

/-- Test for a line counted by `file.error_lines += 1`. -/
def ParsedLine.isSoft : ParsedLine → Bool
  | .soft _ => true
  | _ => false

/-- Test for a successfully parsed line. -/
def ParsedLine.isOk : ParsedLine → Bool
  | .ok _ _ => true
  | _ => false

/-- Number of lines the inner `except` handler counts. -/
def countSoft (lines : List ParsedLine) : Nat :=
  lines.countP ParsedLine.isSoft

/-- Number of lines the predicate of `process_file` marks as matched. -/
def countMatched (values : List String) (lines : List ParsedLine) : Nat :=
  lines.countP fun l =>
    match l with
    | .ok observed _ => line_matched values (strLower observed)
    | _ => false

/-! # Theorems

General lemmas about the embedding come first, then one theorem per claim
(with its witness or counterexample). -/

/-! ## UTF-8 codec lemmas -/


set_option maxRecDepth 4000 in
theorem decodeOneChar_length {bs : List Nat} {c : Nat} {r : List Nat}
    (h : decodeOneChar bs = some (c, r)) : r.length < bs.length := by
  match bs with
  | [] => simp [decodeOneChar] at h
  | b0 :: rest =>
    simp only [decodeOneChar] at h
    repeat' split at h
    all_goals (try cases h)
    all_goals (simp; try omega)

set_option maxRecDepth 8000 in
set_option maxHeartbeats 2000000 in
theorem decodeOneChar_sound {bs : List Nat} {c : Nat} {r : List Nat}
    (h : decodeOneChar bs = some (c, r)) :
    ValidScalar c ∧ bs = utf8EncodeChar c ++ r := by
  match bs with
  | [] => simp [decodeOneChar] at h
  | b0 :: rest =>
    simp only [decodeOneChar] at h
    repeat' split at h
    all_goals (try cases h)
    all_goals
      (unfold ValidScalar
       refine ⟨by omega, ?_⟩
       simp only [utf8EncodeChar]
       repeat' split
       all_goals first | (exfalso; omega) | (simp; try omega))

set_option maxRecDepth 8000 in
set_option maxHeartbeats 2000000 in
theorem decodeOneChar_encodeChar (c : Nat) (r : List Nat) (h : ValidScalar c) :
    decodeOneChar (utf8EncodeChar c ++ r) = some (c, r) := by
  obtain ⟨h1, h2⟩ := h
  simp only [utf8EncodeChar]
  repeat' split
  all_goals simp only [List.cons_append, List.nil_append, decodeOneChar]
  all_goals (repeat' split)
  all_goals first | (exfalso; omega) | (simp; try omega)

theorem utf8EncodeChar_ne_nil (c : Nat) : utf8EncodeChar c ≠ [] := by
  unfold utf8EncodeChar
  repeat' split
  all_goals simp

theorem utf8Encode_nil : utf8Encode [] = [] := rfl

theorem utf8Encode_cons (c : Nat) (t : List Nat) :
    utf8Encode (c :: t) = utf8EncodeChar c ++ utf8Encode t := by
  simp [utf8Encode]

theorem utf8Encode_append (a b : List Nat) :
    utf8Encode (a ++ b) = utf8Encode a ++ utf8Encode b := by
  simp [utf8Encode]

theorem utf8Encode_eq_nil {t : List Nat} (h : utf8Encode t = []) : t = [] := by
  match t with
  | [] => rfl
  | c :: t' =>
    rw [utf8Encode_cons] at h
    exact absurd (List.append_eq_nil.mp h).1 (utf8EncodeChar_ne_nil c)

theorem utf8DecodeAux_eq : ∀ (f : Nat) (bs : List Nat), bs.length ≤ f →
    utf8DecodeAux f bs = utf8DecodeAux bs.length bs := by
  intro f
  induction f using Nat.strong_induction_on with
  | _ f ih =>
    intro bs h
    match f, bs with
    | f, [] => cases f <;> simp [utf8DecodeAux]
    | 0, b :: rest => simp at h
    | g + 1, b :: rest =>
      simp only [List.length_cons, utf8DecodeAux]
      cases hd : decodeOneChar (b :: rest) with
      | none => rfl
      | some cr =>
        obtain ⟨c, r⟩ := cr
        have hlen := decodeOneChar_length hd
        simp only [List.length_cons] at hlen h
        dsimp only
        congr 1
        rw [ih g (by omega) r (by omega), ih rest.length (by omega) r (by omega)]

theorem utf8Decode_cons_eq (b : Nat) (rest : List Nat) :
    utf8Decode (b :: rest) = match decodeOneChar (b :: rest) with
      | none => none
      | some (c, r) => Option.map (c :: ·) (utf8Decode r) := by
  unfold utf8Decode
  simp only [List.length_cons, utf8DecodeAux]
  cases hd : decodeOneChar (b :: rest) with
  | none => rfl
  | some cr =>
    obtain ⟨c, r⟩ := cr
    have hlen := decodeOneChar_length hd
    simp only [List.length_cons] at hlen
    dsimp only
    rw [utf8DecodeAux_eq rest.length r (by omega)]

theorem utf8Decode_encodeChar_append (c : Nat) (bs : List Nat) (h : ValidScalar c) :
    utf8Decode (utf8EncodeChar c ++ bs) = Option.map (c :: ·) (utf8Decode bs) := by
  have hne := utf8EncodeChar_ne_nil c
  have hdec := decodeOneChar_encodeChar c bs h
  match he : utf8EncodeChar c with
  | [] => exact absurd he hne
  | b :: ebs =>
    rw [he] at hdec
    simp only [List.cons_append] at hdec
    simp only [List.cons_append]
    rw [utf8Decode_cons_eq, hdec]

theorem utf8Decode_encode {t : List Nat} (h : ValidText t) :
    utf8Decode (utf8Encode t) = some t := by
  induction t with
  | nil => rfl
  | cons c t' ih =>
    rw [utf8Encode_cons, utf8Decode_encodeChar_append c _ (h c (by simp))]
    rw [ih (fun x hx => h x (by simp [hx]))]
    rfl

theorem utf8Decode_sound : ∀ (n : Nat) (bs : List Nat), bs.length ≤ n →
    ∀ t, utf8Decode bs = some t → ValidText t ∧ bs = utf8Encode t := by
  intro n
  induction n with
  | zero =>
    intro bs hlen t h
    match bs with
    | [] =>
      cases h
      exact ⟨fun c hc => absurd hc (List.not_mem_nil c), rfl⟩
    | b :: rest => simp at hlen
  | succ m ih =>
    intro bs hlen t h
    match bs with
    | [] =>
      cases h
      exact ⟨fun c hc => absurd hc (List.not_mem_nil c), rfl⟩
    | b :: rest =>
      rw [utf8Decode_cons_eq] at h
      cases hd : decodeOneChar (b :: rest) with
      | none => rw [hd] at h; cases h
      | some cr =>
        obtain ⟨c, r⟩ := cr
        rw [hd] at h
        dsimp only at h
        cases ht' : utf8Decode r with
        | none => rw [ht'] at h; cases h
        | some t' =>
          rw [ht'] at h
          cases h
          obtain ⟨hvc, hbs⟩ := decodeOneChar_sound hd
          have hlr := decodeOneChar_length hd
          simp only [List.length_cons] at hlr hlen
          obtain ⟨hvt', hr⟩ := ih r (by omega) t' ht'
          constructor
          · intro x hx
            rcases List.mem_cons.mp hx with hx | hx
            · exact hx ▸ hvc
            · exact hvt' x hx
          · rw [hbs, hr, utf8Encode_cons]

theorem utf8EncodeChar_head_inj {c d : Nat} {A B : List Nat} (hc : ValidScalar c)
    (hd : ValidScalar d) (h : utf8EncodeChar c ++ A = utf8EncodeChar d ++ B) :
    c = d ∧ A = B := by
  have h1 := decodeOneChar_encodeChar c A hc
  have h2 := decodeOneChar_encodeChar d B hd
  rw [h] at h1
  have h3 := h1.symm.trans h2
  injection h3 with h3
  exact ⟨congrArg Prod.fst h3, congrArg Prod.snd h3⟩

theorem utf8Encode_split : ∀ (t1 : List Nat), ValidText t1 → ∀ (t X : List Nat), ValidText t →
    utf8Encode t1 ++ X = utf8Encode t → ∃ t2, t = t1 ++ t2 ∧ X = utf8Encode t2 := by
  intro t1
  induction t1 with
  | nil =>
    intro _ t X _ h
    exact ⟨t, rfl, by simpa [utf8Encode_nil] using h⟩
  | cons c t1' ih =>
    intro hv1 t X hvt h
    match t with
    | [] =>
      rw [utf8Encode_cons, utf8Encode_nil, List.append_assoc] at h
      exact absurd (List.append_eq_nil.mp h).1 (utf8EncodeChar_ne_nil c)
    | d :: t' =>
      rw [utf8Encode_cons, utf8Encode_cons, List.append_assoc] at h
      obtain ⟨hcd, hrest⟩ :=
        utf8EncodeChar_head_inj (hv1 c (by simp)) (hvt d (by simp)) h
      subst hcd
      obtain ⟨t2, ht, hX⟩ :=
        ih (fun x hx => hv1 x (by simp [hx])) t' X (fun x hx => hvt x (by simp [hx])) hrest
      exact ⟨t2, by rw [ht]; rfl, hX⟩


theorem read_and_decode_some (cs : Nat) : ∀ (fuel mw br : Nat), mw + 1 - br ≤ fuel →
    ∀ (s p c rest : List Nat),
    read_and_decode cs mw s p br = some (c, rest) →
    ∃ j, 1 ≤ j ∧ rest = s.drop (j * cs) ∧
      utf8Decode (p ++ s.take (j * cs)) = some c := by
  intro fuel
  induction fuel with
  | zero =>
    intro mw br hfuel s p c rest h
    rw [read_and_decode] at h
    cases hdec : utf8Decode (p ++ s.take cs) with
    | some t =>
      rw [hdec] at h
      cases h
      exact ⟨1, le_refl 1, by simp, by simpa using hdec⟩
    | none =>
      rw [hdec] at h
      rw [if_pos (by omega)] at h
      cases h
  | succ fl ih =>
    intro mw br hfuel s p c rest h
    rw [read_and_decode] at h
    cases hdec : utf8Decode (p ++ s.take cs) with
    | some t =>
      rw [hdec] at h
      cases h
      exact ⟨1, le_refl 1, by simp, by simpa using hdec⟩
    | none =>
      rw [hdec] at h
      by_cases hw : mw < br + cs
      · rw [if_pos hw] at h
        cases h
      · rw [if_neg hw] at h
        by_cases hz : cs = 0
        · rw [if_pos hz] at h
          cases h
        · rw [if_neg hz] at h
          obtain ⟨j, hj, hrest, hdec2⟩ := ih mw (br + cs) (by omega) _ _ _ _ h
          refine ⟨j + 1, by omega, ?_, ?_⟩
          · rw [hrest, List.drop_drop]
            congr 1
            ring
          · rw [← hdec2]
            congr 1
            rw [List.append_assoc]
            congr 1
            have : (j + 1) * cs = cs + j * cs := by ring
            rw [this, List.take_add]

theorem read_and_decode_valid (cs : Nat) (hcs : 0 < cs) : ∀ (fuel : Nat) (s p : List Nat)
    (mw br : Nat) (text : List Nat), s.length ≤ fuel → ValidText text →
    p ++ s = utf8Encode text → br + s.length ≤ mw →
    ∃ t1 t2, text = t1 ++ t2 ∧ (p ++ s ≠ [] → t1 ≠ []) ∧
      read_and_decode cs mw s p br = some (t1, utf8Encode t2) := by
  intro fuel
  induction fuel with
  | zero =>
    intro s p mw br text hf hv hps hbr
    match s with
    | [] =>
      have hp : p = utf8Encode text := by simpa using hps
      refine ⟨text, [], by simp, ?_, ?_⟩
      · intro hne ht
        subst ht
        rw [utf8Encode_nil] at hp
        simp [hp] at hne
      · rw [read_and_decode]
        rw [show List.take cs ([] : List Nat) = [] from by simp, List.append_nil, hp,
          utf8Decode_encode hv]
        simp [utf8Encode_nil]
    | b :: _ => simp at hf
  | succ fl ih =>
    intro s p mw br text hf hv hps hbr
    cases hdec : utf8Decode (p ++ s.take cs) with
    | some t1 =>
      obtain ⟨hvt1, henc⟩ := utf8Decode_sound (p ++ s.take cs).length _ le_rfl _ hdec
      have hsplit : utf8Encode t1 ++ s.drop cs = utf8Encode text := by
        rw [← henc, List.append_assoc, List.take_append_drop, hps]
      obtain ⟨t2, htext, hX⟩ := utf8Encode_split t1 hvt1 text (s.drop cs) hv hsplit
      refine ⟨t1, t2, htext, ?_, ?_⟩
      · intro hne h1
        subst h1
        rw [utf8Encode_nil] at henc
        obtain ⟨hp0, ht0⟩ := List.append_eq_nil.mp henc
        have hs0 : s = [] := by
          rcases List.take_eq_nil_iff.mp ht0 with h | h
          · omega
          · exact h
        rw [hp0, hs0] at hne
        exact hne rfl
      · rw [read_and_decode, hdec, hX]
    | none =>
      have hslen : cs < s.length := by
        by_contra hle
        push_neg at hle
        rw [List.take_of_length_le hle, hps, utf8Decode_encode hv] at hdec
        cases hdec
      obtain ⟨t1, t2, htext, hne, hrad⟩ := ih (s.drop cs) (p ++ s.take cs) mw (br + cs) text
        (by simp; omega) hv
        (by rw [List.append_assoc, List.take_append_drop]; exact hps)
        (by simp; omega)
      refine ⟨t1, t2, htext, ?_, ?_⟩
      · intro hne2
        apply hne
        rw [List.append_assoc, List.take_append_drop]
        exact hne2
      · rw [read_and_decode, hdec, if_neg (by omega), if_neg (by omega)]
        exact hrad

theorem splitNl_ne_nil (l : List Nat) : splitNl l ≠ [] := by
  match l with
  | [] => simp [splitNl]
  | c :: cs =>
    simp only [splitNl]
    split
    · simp
    · cases h : splitNl cs <;> simp

theorem splitNl_no_newline (l : List Nat) : ∀ p ∈ splitNl l, 10 ∉ p := by
  induction l with
  | nil =>
    intro p hp
    simp [splitNl] at hp
    simp [hp]
  | cons c cs ih =>
    intro p hp
    simp only [splitNl] at hp
    by_cases hc : c = 10
    · rw [if_pos hc] at hp
      rcases List.mem_cons.mp hp with rfl | hp
      · simp
      · exact ih p hp
    · rw [if_neg hc] at hp
      cases hsp : splitNl cs with
      | nil => exact absurd hsp (splitNl_ne_nil cs)
      | cons q qs =>
        rw [hsp] at hp
        rcases List.mem_cons.mp hp with rfl | hp
        · intro hmem
          rcases List.mem_cons.mp hmem with h10 | h10
          · exact hc h10.symm
          · exact ih q (by rw [hsp]; simp) h10
        · exact ih p (by rw [hsp]; simp [hp])

theorem splitNl_single {l : List Nat} (h : 10 ∉ l) : splitNl l = [l] := by
  induction l with
  | nil => rfl
  | cons c cs ih =>
    simp only [splitNl]
    rw [if_neg (fun hc => h (by simp [hc]))]
    rw [ih (fun hm => h (by simp [hm]))]

theorem splitNl_append (a b : List Nat) :
    splitNl (a ++ b) = (splitNl a).dropLast ++
      ((splitNl a).getLastD [] ++ (splitNl b).headD []) :: (splitNl b).tail := by
  induction a with
  | nil =>
    simp only [List.nil_append, splitNl]
    cases hb : splitNl b with
    | nil => exact absurd hb (splitNl_ne_nil b)
    | cons q qs => simp
  | cons c a' ih =>
    simp only [List.cons_append, splitNl, List.append_eq]
    by_cases hc : c = 10
    · rw [if_pos hc, if_pos hc, ih]
      cases ha : splitNl a' with
      | nil => exact absurd ha (splitNl_ne_nil a')
      | cons q qs => simp [List.getLastD_cons]
    · rw [if_neg hc, if_neg hc, ih]
      cases ha : splitNl a' with
      | nil => exact absurd ha (splitNl_ne_nil a')
      | cons q qs =>
        cases qs with
        | nil => simp [List.getLastD_cons]
        | cons q1 qs' => simp [List.getLastD_cons]

theorem utf8Decode_nil : utf8Decode [] = some [] := rfl

theorem utf8Encode_ne_nil {t : List Nat} (h : t ≠ []) : utf8Encode t ≠ [] :=
  fun h0 => h (utf8Encode_eq_nil h0)

theorem read_and_decode_consumes {cs mw : Nat} {s c rest : List Nat}
    (h : read_and_decode cs mw s [] 0 = some (c, rest)) (hc : c ≠ []) :
    rest.length < s.length := by
  obtain ⟨j, hj, hrest, hdec⟩ :=
    read_and_decode_some cs (mw + 1) mw 0 (by omega) s [] c rest h
  obtain ⟨hv, henc⟩ := utf8Decode_sound _ _ le_rfl _ hdec
  simp only [List.nil_append] at henc
  have hne : s.take (j * cs) ≠ [] := by
    intro h0
    rw [h0] at henc
    exact hc (utf8Encode_eq_nil henc.symm)
  have hcond : ¬(j * cs = 0 ∨ s = []) := fun hor => hne (List.take_eq_nil_iff.mpr hor)
  push_neg at hcond
  subst hrest
  have h1 : s.length ≠ 0 := fun h0 => hcond.2 (List.eq_nil_of_length_eq_zero h0)
  simp only [List.length_drop]
  omega

theorem getLastD_mem {α : Type} : ∀ (l : List α) (d : α), l ≠ [] → l.getLastD d ∈ l
  | [a], d, _ => by simp [List.getLastD]
  | a :: b :: t, d, _ => by
    rw [List.getLastD_cons]
    exact List.mem_cons_of_mem a (getLastD_mem (b :: t) a (by simp))

theorem yieldLinesLoop_empty (cs mw : Nat) (buffer : List Nat) :
    yieldLinesLoop cs mw [] buffer = some [] := by
  rw [yieldLinesLoop, read_and_decode]
  simp [utf8Decode_nil]

theorem yieldLinesLoop_valid (cs mw : Nat) (hcs : 0 < cs) : ∀ (n : Nat) (text buffer : List Nat),
    text.length ≤ n → ValidText text → (utf8Encode text).length ≤ mw → 10 ∉ buffer →
    yieldLinesLoop cs mw (utf8Encode text) buffer =
      some ((splitNl (buffer ++ text)).dropLast) := by
  intro n
  induction n with
  | zero =>
    intro text buffer hn hv hmw hbuf
    match text with
    | [] =>
      rw [utf8Encode_nil, yieldLinesLoop_empty]
      rw [List.append_nil, splitNl_single hbuf]
      simp
    | _ :: _ => simp at hn
  | succ m ih =>
    intro text buffer hn hv hmw hbuf
    by_cases ht0 : text = []
    · subst ht0
      rw [utf8Encode_nil, yieldLinesLoop_empty]
      rw [List.append_nil, splitNl_single hbuf]
      simp
    · obtain ⟨t1, t2, htext, hne, hrad⟩ :=
        read_and_decode_valid cs hcs (utf8Encode text).length (utf8Encode text) [] mw 0 text
          le_rfl hv (by simp) (by simpa using hmw)
      have ht1 : t1 ≠ [] := hne (by simp [utf8Encode_ne_nil ht0])
      have henc12 : utf8Encode text = utf8Encode t1 ++ utf8Encode t2 := by
        rw [htext, utf8Encode_append]
      have hlen2 : (utf8Encode t2).length < (utf8Encode text).length := by
        rw [henc12]
        have := utf8Encode_ne_nil ht1
        simp only [List.length_append]
        cases he : utf8Encode t1 with
        | nil => exact absurd he this
        | cons x xs => simp
      rw [yieldLinesLoop, hrad]
      dsimp only
      rw [if_neg ht1]
      rw [dif_pos hlen2]
      have hbuf2 : 10 ∉ (splitNl (buffer ++ t1)).getLastD [] :=
        splitNl_no_newline (buffer ++ t1) _
          (getLastD_mem _ _ (splitNl_ne_nil (buffer ++ t1)))
      have ht2len : t2.length ≤ m := by
        have h1 : t1.length + t2.length = text.length := by
          rw [htext]; simp
        have h2 : 1 ≤ t1.length := by
          cases t1 with
          | nil => exact absurd rfl ht1
          | cons x xs => simp
        omega
      have hv2 : ValidText t2 := fun x hx => hv x (by rw [htext]; simp [hx])
      have hmw2 : (utf8Encode t2).length ≤ mw := by omega
      rw [ih t2 _ ht2len hv2 hmw2 hbuf2]
      -- now combine the split pieces
      rw [htext, ← List.append_assoc]
      rw [splitNl_append (buffer ++ t1) t2]
      rw [List.dropLast_append_cons]
      rw [splitNl_append _ t2, splitNl_single hbuf2]
      simp [List.getLastD]

theorem process_lines_invariant (values : List String) :
    ∀ (lines : List ParsedLine) (file : FileConfig),
    file.lines_matched ≤ file.lines_processed →
    file.bytes_processed ≤ file.file_size →
    (∀ ln ∈ lines, ln.pos ≤ file.file_size) →
    ∀ p ∈ (process_lines values file lines).2,
      p.lines_matched ≤ p.lines_processed ∧ p.bytes_processed ≤ p.file_size := by
  intro lines
  induction lines with
  | nil =>
    intro file h1 h2 _ p hp
    simp only [process_lines, List.mem_singleton] at hp
    subst hp
    exact ⟨h1, le_refl _⟩
  | cons ln rest ih =>
    intro file h1 h2 hpos p hp
    have hposr : ∀ l ∈ rest, l.pos ≤ file.file_size := fun l hl => hpos l (by simp [hl])
    match ln with
    | ParsedLine.hard msg pos =>
      simp only [process_lines, List.mem_singleton] at hp
      subst hp
      exact ⟨h1, h2⟩
    | ParsedLine.ok observed pos =>
      have hpos0 := hpos (ParsedLine.ok observed pos) (by simp)
      simp only [ParsedLine.pos] at hpos0
      by_cases hm : line_matched values (strLower observed) <;>
        simp only [process_lines, hm, if_true, if_false, Bool.false_eq_true,
          ite_true, ite_false] at hp <;>
        by_cases hper : (file.lines_processed + 1) % 1000000 = 0 <;>
        simp only [hper, ite_true, ite_false, if_true, if_false] at hp
      · rcases List.mem_cons.mp hp with rfl | hp
        · exact ⟨by dsimp only; omega, by dsimp only; exact hpos0⟩
        · refine ih _ ?_ ?_ ?_ p hp
          · dsimp only; omega
          · dsimp only; exact hpos0
          · exact fun l hl => hposr l hl
      · refine ih _ ?_ ?_ ?_ p hp
        · dsimp only; omega
        · dsimp only; exact h2
        · exact fun l hl => hposr l hl
      · rcases List.mem_cons.mp hp with rfl | hp
        · exact ⟨by dsimp only; omega, by dsimp only; exact hpos0⟩
        · refine ih _ ?_ ?_ ?_ p hp
          · dsimp only; omega
          · dsimp only; exact hpos0
          · exact fun l hl => hposr l hl
      · refine ih _ ?_ ?_ ?_ p hp
        · dsimp only; omega
        · dsimp only; exact h2
        · exact fun l hl => hposr l hl
    | ParsedLine.soft pos =>
      have hpos0 := hpos (ParsedLine.soft pos) (by simp)
      simp only [ParsedLine.pos] at hpos0
      simp only [process_lines] at hp
      by_cases hper : (file.lines_processed + 1) % 1000000 = 0 <;>
        simp only [hper, ite_true, ite_false, if_true, if_false] at hp
      · rcases List.mem_cons.mp hp with rfl | hp
        · exact ⟨by dsimp only; omega, by dsimp only; exact hpos0⟩
        · refine ih _ ?_ ?_ ?_ p hp
          · dsimp only; omega
          · dsimp only; exact hpos0
          · exact fun l hl => hposr l hl
      · refine ih _ ?_ ?_ ?_ p hp
        · dsimp only; omega
        · dsimp only; exact h2
        · exact fun l hl => hposr l hl

theorem process_lines_no_hard (values : List String) :
    ∀ (lines : List ParsedLine) (file : FileConfig),
    (∀ ln ∈ lines, ln.isHard = false) →
    (process_lines values file lines).1 =
      { input_path := file.input_path
        output_path := file.output_path
        file_size := file.file_size
        complete := true
        bytes_processed := file.file_size
        lines_processed := file.lines_processed + lines.length
        error_message := file.error_message
        error_lines := file.error_lines + countSoft lines
        lines_matched := file.lines_matched + countMatched values lines
        file_type := file.file_type } := by
  intro lines
  induction lines with
  | nil =>
    intro file _
    simp [process_lines, countSoft, countMatched]
  | cons ln rest ih =>
    intro file hh
    have hhr : ∀ l ∈ rest, l.isHard = false := fun l hl => hh l (by simp [hl])
    match ln with
    | ParsedLine.hard msg pos =>
      have := hh (ParsedLine.hard msg pos) (by simp)
      simp [ParsedLine.isHard] at this
    | ParsedLine.ok observed pos =>
      by_cases hm : line_matched values (strLower observed) <;>
        simp only [process_lines, hm, ite_true, ite_false, Bool.false_eq_true] <;>
        by_cases hper : (file.lines_processed + 1) % 1000000 = 0 <;>
        simp only [hper, ite_true, ite_false] <;>
        rw [ih _ hhr] <;>
        simp only [countSoft, countMatched, List.countP_cons, ParsedLine.isSoft, hm,
          FileConfig.mk.injEq] <;>
        simp <;> omega
    | ParsedLine.soft pos =>
      by_cases hper : (file.lines_processed + 1) % 1000000 = 0 <;>
        simp only [process_lines, hper, ite_true, ite_false] <;>
        rw [ih _ hhr] <;>
        simp only [countSoft, countMatched, List.countP_cons, ParsedLine.isSoft,
          FileConfig.mk.injEq] <;>
        simp <;> omega

/-! ## Additional helper lemmas for the claim theorems -/

theorem read_and_decode_undecodable (cs : Nat) (hcs : 0 < cs) :
    ∀ (fuel mw br : Nat), mw + 1 - br ≤ fuel → ∀ (s p : List Nat),
    (∀ n, 0 < n → utf8Decode (p ++ s.take n) = none) →
    read_and_decode cs mw s p br = none := by
  intro fuel
  induction fuel with
  | zero =>
    intro mw br hfuel s p H
    rw [read_and_decode, H cs hcs, if_pos (by omega)]
  | succ fl ih =>
    intro mw br hfuel s p H
    rw [read_and_decode, H cs hcs]
    by_cases hw : mw < br + cs
    · rw [if_pos hw]
    · rw [if_neg hw, if_neg (by omega)]
      refine ih mw (br + cs) (by omega) _ _ ?_
      intro n hn
      rw [List.append_assoc, ← List.take_add, H (cs + n) (by omega)]

theorem isHard_false_of_ok {l : ParsedLine} (h : l.isOk = true) : l.isHard = false := by
  cases l <;> simp_all [ParsedLine.isOk, ParsedLine.isHard]

theorem isSoft_false_of_ok {l : ParsedLine} (h : l.isOk = true) : l.isSoft = false := by
  cases l <;> simp_all [ParsedLine.isOk, ParsedLine.isSoft]

theorem countSoft_of_ok {ls : List ParsedLine} (h : ∀ l ∈ ls, l.isOk = true) :
    countSoft ls = 0 := by
  unfold countSoft
  rw [List.countP_eq_zero]
  intro l hl
  simp [isSoft_false_of_ok (h l hl)]

theorem countMatched_middle (values : List String) (a b : List ParsedLine) (pos : Nat) :
    countMatched values (a ++ ParsedLine.soft pos :: b) = countMatched values (a ++ b) := by
  unfold countMatched
  rw [List.countP_append, List.countP_cons, List.countP_append]
  simp

theorem mkFileConfig_ok {stat : String → Nat} {ip : String} {op : Option String}
    {c : Bool} {lp el lm : Nat} {g : FileConfig}
    (h : mkFileConfig stat ip op c lp el lm = Except.ok g) :
    g.input_path = ip ∧ g.output_path = op ∧ g.complete = c ∧ g.error_lines = el ∧
    g.lines_matched = lm ∧ g.lines_processed = (if c then lp else 0) ∧
    g.bytes_processed = (if c then stat ip else 0) ∧ g.file_size = stat ip ∧
    g.error_message = none := by
  simp only [mkFileConfig] at h
  repeat' split at h
  all_goals (try cases h)
  all_goals simp_all

/-! ## Claim C1 -/

/-- C1: the claim states that `process_file` marks a line as matched if and
only if the case-normalized field value equals or contains a member of the
configured value set, also for value sets with more than one member, the
single-value path being only a speed short-circuit.  In the code (process.py
lines 133-147) `matched` can only be set under `value is not None`, and
`value` is only assigned when `len(values) == 1`; there is no any-member
loop, so a two-member set matches nothing.  With `--value "a,b"`
(`values = {"a", "b"}`) and an input line whose field value is `"a"`, the
code leaves the line unmatched while the spec's predicate matches it; the
code's own CLI help ("Supports a comma separated list") and its startup log
("Checking if any of the values ... match") document the multi-value
intent, so the claim is right and the code has the bug. -/
theorem c1_multivalue_match_dropped :
    line_matched ["a", "b"] "a" = false ∧ spec_line_matched ["a", "b"] "a" = true := by
  decide

/-! ## Claim C8 -/

/-- C8 counterexample: a fingerprint mismatch against the saved checkpoint
terminates via `sys.exit(0)` (main script line 107), so the exit code is 0
and not non-zero as the claim states; the concrete mismatched fingerprints
are distinct strings. -/
theorem c8_mismatch_exit_code_is_zero :
    startupExit (some "subreddit:python") "subreddit:rust" (some "split") "split" none [] =
      StartupOutcome.exited 0 ∧ "subreddit:python" ≠ "subreddit:rust" := by
  constructor
  · rfl
  · decide

/-- C8 amended: the process exits with code 0 on normal completion, when
there is nothing to do, and also on a fingerprint or run-type mismatch:
both mismatch branches call `sys.exit(0)` (main script lines 107 and 111),
so every exit taken by the startup decision sequence carries code 0 and no
startup path exits non-zero. -/
theorem c8_startup_always_exits_zero (saved_arg_string : Option String)
    (arg_string : String) (saved_type : Option String) (script_type : String)
    (input_files : Option (List FileConfig)) (discovered : List FileConfig)
    (code : Nat)
    (h : startupExit saved_arg_string arg_string saved_type script_type
      input_files discovered = StartupOutcome.exited code) : code = 0 := by
  simp only [startupExit] at h
  repeat' split at h
  all_goals (first | (cases h; rfl) | cases h)

/-- Witness for `c8_startup_always_exits_zero` at the mismatch input. -/
theorem c8_startup_always_exits_zero_witness :
    startupExit (some "a") "b" (some "split") "split" none [] =
      StartupOutcome.exited 0 ∧ (0 : Nat) = 0 :=
  ⟨by decide, c8_startup_always_exits_zero (some "a") "b" (some "split") "split"
    none [] 0 (by decide)⟩

/-! ## Claim C9 -/

/-- C9 counterexample: the drain loop computes
`seconds_left = int((total_bytes - total_bytes_processed) / int(sum/len))`
(main script line 225) with no guard; on a tick whose instantaneous speed
sample is 0 with an empty speed window the smoothed throughput is 0 and the
division raises `ZeroDivisionError` instead of reporting an unknown ETA. -/
theorem c9_eta_zero_throughput_raises :
    (etaStep { list := [], max_size := 40 } 0 100 0).2 =
      Except.error "ZeroDivisionError" := by
  decide

/-- C9 amended: the ETA computation is not guarded: after pushing the
current speed sample, the drain-loop step raises `ZeroDivisionError` if and
only if the smoothed (mean) throughput of the speed window is zero; there
is no unknown-ETA fallback. -/
theorem c9_eta_guard_missing (speed_queue : BoundedQueue Nat)
    (bytes_per_second total_bytes total_bytes_processed : Nat) :
    (etaStep speed_queue bytes_per_second total_bytes total_bytes_processed).2 =
      Except.error "ZeroDivisionError" ↔
    smoothedSpeed (speed_queue.put bytes_per_second).list = 0 := by
  unfold etaStep etaSeconds
  by_cases h : smoothedSpeed (speed_queue.put bytes_per_second).list = 0 <;> simp [h]

/-! ## Claim C10 -/

/-- C10: `FileConfig.__init__` raises `ValueError` for every input path
whose base name starts with neither "RS" nor "RC" (file_util.py lines
90-96), and consequently every constructed Task Record carries file type
SUBMISSION or COMMENT. -/
theorem c10_file_type_guard (stat : String → Nat) (input_path : String)
    (output_path : Option String) (complete : Bool)
    (lines_processed error_lines lines_matched : Nat) :
    (List.isPrefixOf ['R', 'S'] (afterLastSlash input_path.data) = false →
     List.isPrefixOf ['R', 'C'] (afterLastSlash input_path.data) = false →
     mkFileConfig stat input_path output_path complete lines_processed
       error_lines lines_matched =
         Except.error ("Unknown working file type: " ++ input_path)) ∧
    (∀ f, mkFileConfig stat input_path output_path complete lines_processed
        error_lines lines_matched = Except.ok f →
      f.file_type = FileType.SUBMISSION ∨ f.file_type = FileType.COMMENT) := by
  constructor
  · intro h1 h2
    unfold mkFileConfig
    rw [if_neg (by simp [h1]), if_neg (by simp [h2])]
  · intro f _
    cases f.file_type with
    | COMMENT => exact Or.inr rfl
    | SUBMISSION => exact Or.inl rfl

/-- Witness for `c10_file_type_guard`: a name with neither prefix is
rejected, and an "RS"-prefixed name yields a SUBMISSION record. -/
theorem c10_file_type_guard_witness :
    List.isPrefixOf ['R', 'S'] (afterLastSlash "dumps/archive.zst".data) = false ∧
    List.isPrefixOf ['R', 'C'] (afterLastSlash "dumps/archive.zst".data) = false ∧
    mkFileConfig (fun _ => 42) "dumps/archive.zst" none false 0 0 0 =
      Except.error ("Unknown working file type: " ++ "dumps/archive.zst") ∧
    ((⟨"RS_2020-01.zst", none, 42, false, 0, 0, none, 0, 0,
        FileType.SUBMISSION⟩ : FileConfig).file_type = FileType.SUBMISSION ∨
     (⟨"RS_2020-01.zst", none, 42, false, 0, 0, none, 0, 0,
        FileType.SUBMISSION⟩ : FileConfig).file_type = FileType.COMMENT) :=
  ⟨by decide, by decide,
   (c10_file_type_guard (fun _ => 42) "dumps/archive.zst" none false 0 0 0).1
     (by decide) (by decide),
   (c10_file_type_guard (fun _ => 42) "RS_2020-01.zst" none false 0 0 0).2
     _ (by decide)⟩

/-! ## Claim C4 -/

/-- C4: on a resumed run (the task list rehydrated from the checkpoint by
`load_file_list`, fingerprint and run type matching so the run proceeds),
every Task Record whose completion flag is true is excluded from
`files_to_process` (main script lines 142-151), the exact list handed to
`pool.starmap_async`, so no line of a completed file is read again. -/
theorem c4_complete_files_not_dispatched (stat : String → Nat)
    (entries : List SavedEntry) (loaded : List FileConfig)
    (h : loadEntries stat entries = Except.ok loaded)
    (f : FileConfig) (hf : f ∈ loaded) (hc : f.complete = true) :
    f ∉ filesToProcess loaded := by
  intro hmem
  unfold filesToProcess at hmem
  have h2 := (List.mem_filter.mp hmem).2
  simp [hc] at h2

/-- Witness for `c4_complete_files_not_dispatched` on a one-entry
checkpoint whose record is complete. -/
theorem c4_complete_files_not_dispatched_witness :
    loadEntries (fun _ => 10)
        [(⟨"RS_2020-01.zst", some "out/RS_2020-01.zst", true, 5, 0, 2⟩ : SavedEntry)] =
      Except.ok [(⟨"RS_2020-01.zst", some "out/RS_2020-01.zst", 10, true, 10, 5,
        none, 0, 2, FileType.SUBMISSION⟩ : FileConfig)] ∧
    (⟨"RS_2020-01.zst", some "out/RS_2020-01.zst", 10, true, 10, 5,
        none, 0, 2, FileType.SUBMISSION⟩ : FileConfig) ∉
      filesToProcess [(⟨"RS_2020-01.zst", some "out/RS_2020-01.zst", 10, true, 10, 5,
        none, 0, 2, FileType.SUBMISSION⟩ : FileConfig)] :=
  ⟨by decide,
   c4_complete_files_not_dispatched (fun _ => 10)
     [(⟨"RS_2020-01.zst", some "out/RS_2020-01.zst", true, 5, 0, 2⟩ : SavedEntry)]
     [(⟨"RS_2020-01.zst", some "out/RS_2020-01.zst", 10, true, 10, 5,
        none, 0, 2, FileType.SUBMISSION⟩ : FileConfig)] (by decide)
     (⟨"RS_2020-01.zst", some "out/RS_2020-01.zst", 10, true, 10, 5,
        none, 0, 2, FileType.SUBMISSION⟩ : FileConfig) (by decide) (by decide)⟩

/-! ## Claim C2 -/

/-- C2 counterexample: checkpoint round-trip does not reproduce all four
counters.  `save_file_list` only serializes
`[input_path, output_path, complete, lines_processed, error_lines,
lines_matched]` and `FileConfig.__init__` rehydrates with
`lines_processed = lines_processed if complete else 0` and
`bytes_processed = file_size if complete else 0` (file_util.py lines
85-86), so an incomplete record with `lines_processed = 50` and
`bytes_processed = 40` comes back with both reset to 0. -/
theorem c2_roundtrip_counterexample :
    ¬ (∀ (stat : String → Nat) (f g : FileConfig),
        loadEntries stat (save_file_list [f] "subreddit:mentalhealth" "split" none).files =
          Except.ok [g] →
        g.lines_processed = f.lines_processed ∧
          g.bytes_processed = f.bytes_processed) := by
  intro h
  have h2 := h (fun _ => 100)
    (⟨"RS_2020-01.zst", some "out/RS_2020-01.zst", 100, false, 40, 50,
      none, 2, 3, FileType.SUBMISSION⟩ : FileConfig)
    (⟨"RS_2020-01.zst", some "out/RS_2020-01.zst", 100, false, 0, 0,
      none, 2, 3, FileType.SUBMISSION⟩ : FileConfig)
    (by decide)
  exact absurd h2.1 (by decide)

/-- C2 amended: the round-trip through `save_file_list` and
`load_file_list` reproduces, for every record, the input path, output
path, completion flag, lines errored and lines matched; lines processed is
reproduced exactly when the record is complete and is reset to 0
otherwise, and bytes processed is not serialized at all but rehydrated as
the re-stat'd file size when complete and 0 otherwise (file_util.py lines
83-89, progress.py lines 49 and 92-96). -/
theorem c2_roundtrip_amended (stat : String → Nat) (args ty : String)
    (cp : Option (List String)) :
    ∀ (fcs gs : List FileConfig),
    loadEntries stat (save_file_list fcs args ty cp).files = Except.ok gs →
    List.Forall₂ (fun f g =>
      g.input_path = f.input_path ∧ g.output_path = f.output_path ∧
      g.complete = f.complete ∧ g.error_lines = f.error_lines ∧
      g.lines_matched = f.lines_matched ∧
      g.lines_processed = (if f.complete then f.lines_processed else 0) ∧
      g.bytes_processed = (if f.complete then stat f.input_path else 0) ∧
      g.file_size = stat f.input_path ∧ g.error_message = none) fcs gs := by
  intro fcs
  induction fcs with
  | nil =>
    intro gs h
    simp only [save_file_list, List.map_nil, loadEntries] at h
    cases h
    exact List.Forall₂.nil
  | cons f fcs' ih =>
    intro gs h
    simp only [save_file_list, List.map_cons, loadEntries, saveEntry] at h
    cases hmk : mkFileConfig stat f.input_path f.output_path f.complete
        f.lines_processed f.error_lines f.lines_matched with
    | error msg => rw [hmk] at h; cases h
    | ok g0 =>
      rw [hmk] at h
      cases hrest : loadEntries stat (fcs'.map saveEntry) with
      | error msg => rw [hrest] at h; cases h
      | ok gs' =>
        rw [hrest] at h
        cases h
        refine List.Forall₂.cons ?_ (ih gs' (by simpa [save_file_list] using hrest))
        obtain ⟨e1, e2, e3, e4, e5, e6, e7, e8, e9⟩ := mkFileConfig_ok hmk
        exact ⟨e1, e2, e3, e4, e5, e6, e7, e8, e9⟩

/-- Witness for `c2_roundtrip_amended` on a one-record list (one complete
record saved and reloaded). -/
theorem c2_roundtrip_amended_witness :
    loadEntries (fun _ => 100)
        (save_file_list
          [(⟨"RS_2020-01.zst", some "out", 100, true, 100, 50, none, 2, 3,
            FileType.SUBMISSION⟩ : FileConfig)] "a" "split" none).files =
      Except.ok [(⟨"RS_2020-01.zst", some "out", 100, true, 100, 50, none, 2, 3,
        FileType.SUBMISSION⟩ : FileConfig)] ∧
    List.Forall₂ (fun f g =>
      g.input_path = f.input_path ∧ g.output_path = f.output_path ∧
      g.complete = f.complete ∧ g.error_lines = f.error_lines ∧
      g.lines_matched = f.lines_matched ∧
      g.lines_processed = (if f.complete then f.lines_processed else 0) ∧
      g.bytes_processed = (if f.complete then (fun (_ : String) => (100 : Nat)) f.input_path else 0) ∧
      g.file_size = (fun (_ : String) => (100 : Nat)) f.input_path ∧ g.error_message = none)
      [(⟨"RS_2020-01.zst", some "out", 100, true, 100, 50, none, 2, 3,
        FileType.SUBMISSION⟩ : FileConfig)]
      [(⟨"RS_2020-01.zst", some "out", 100, true, 100, 50, none, 2, 3,
        FileType.SUBMISSION⟩ : FileConfig)] :=
  ⟨by decide,
   c2_roundtrip_amended (fun _ => 100) "a" "split" none
     [(⟨"RS_2020-01.zst", some "out", 100, true, 100, 50, none, 2, 3,
       FileType.SUBMISSION⟩ : FileConfig)]
     [(⟨"RS_2020-01.zst", some "out", 100, true, 100, 50, none, 2, 3,
       FileType.SUBMISSION⟩ : FileConfig)]
     (by decide)⟩

/-! ## Claim C3 -/

/-- C3 counterexample: the snapshot invariant `lines_matched ≤
lines_processed` fails on the very first push of `process_file`.  A file
that failed mid-run in an earlier session is saved with its counters
(e.g. 60 lines processed, 7 matched, incomplete); `FileConfig.__init__`
rehydrates it with `lines_processed = 0` but keeps `lines_matched = 7`
(file_util.py lines 86 and 89), the incomplete record is dispatched again,
and the initial `queue.put(file)` (process.py line 125) pushes a snapshot
with `lines_matched = 7 > 0 = lines_processed`. -/
theorem c3_snapshot_invariant_counterexample :
    ¬ (∀ (g : FileConfig) (lines : List ParsedLine),
        loadEntries (fun _ => 100)
          [(⟨"RS_2020-01.zst", some "out", false, 60, 1, 7⟩ : SavedEntry)] =
            Except.ok [g] →
        ∀ p ∈ (process_file ["mentalhealth"] g lines).2,
          p.lines_matched ≤ p.lines_processed ∧
            p.bytes_processed ≤ p.file_size) := by
  intro h
  have h2 := h
    (⟨"RS_2020-01.zst", some "out", 100, false, 0, 0, none, 1, 7,
      FileType.SUBMISSION⟩ : FileConfig) [] (by decide)
  exact absurd
    (h2 (⟨"RS_2020-01.zst", some "out", 100, false, 0, 0, none, 1, 7,
      FileType.SUBMISSION⟩ : FileConfig) (by decide)) (by decide)

/-- C3 amended: provided the Task Record's state at the initial push
already satisfies both inequalities (as it does for freshly discovered
records, whose counters are zero) and every yielded stream position is
within the file size, every snapshot pushed onto the update channel by
`process_file` — the start push, each periodic push, and the final push —
satisfies `lines_matched ≤ lines_processed` and
`bytes_processed ≤ file_size`. -/
theorem c3_snapshot_invariants (values : List String) (file : FileConfig)
    (lines : List ParsedLine)
    (h1 : file.lines_matched ≤ file.lines_processed)
    (h2 : file.bytes_processed ≤ file.file_size)
    (h3 : ∀ ln ∈ lines, ln.pos ≤ file.file_size) :
    ∀ p ∈ (process_file values file lines).2,
      p.lines_matched ≤ p.lines_processed ∧
        p.bytes_processed ≤ p.file_size := by
  intro p hp
  simp only [process_file] at hp
  rcases List.mem_cons.mp hp with rfl | hp
  · exact ⟨h1, h2⟩
  · exact process_lines_invariant values lines file h1 h2 h3 p hp

/-- Witness for `c3_snapshot_invariants` on a fresh record and a short
line sequence. -/
theorem c3_snapshot_invariants_witness :
    (⟨"RS_2020-01.zst", some "out", 100, false, 0, 0, none, 0, 0,
      FileType.SUBMISSION⟩ : FileConfig).lines_matched ≤
      (⟨"RS_2020-01.zst", some "out", 100, false, 0, 0, none, 0, 0,
        FileType.SUBMISSION⟩ : FileConfig).lines_processed ∧
    (∀ p ∈ (process_file ["mentalhealth"]
        (⟨"RS_2020-01.zst", some "out", 100, false, 0, 0, none, 0, 0,
          FileType.SUBMISSION⟩ : FileConfig)
        [ParsedLine.ok "mentalhealth" 5, ParsedLine.soft 9]).2,
      p.lines_matched ≤ p.lines_processed ∧
        p.bytes_processed ≤ p.file_size) :=
  ⟨by decide,
   c3_snapshot_invariants ["mentalhealth"]
     (⟨"RS_2020-01.zst", some "out", 100, false, 0, 0, none, 0, 0,
       FileType.SUBMISSION⟩ : FileConfig)
     [ParsedLine.ok "mentalhealth" 5, ParsedLine.soft 9]
     (by decide) (by decide) (by decide)⟩

/-! ## Claim C5 -/

/-- C5: when the accumulated bytes are undecodable no matter how much more
of the stream is appended — the situation in which the accumulation is
bound to exceed the maximum decode window — `read_and_decode` raises
`UnicodeError` (result `none`, from the `bytes_read > max_window_size`
branch, file_util.py lines 174-175) instead of ever returning truncated or
garbled text. -/
theorem c5_undecodable_window_error (chunk_size max_window_size bytes_read : Nat)
    (stream previous_chunk : List Nat) (hcs : 0 < chunk_size)
    (H : ∀ n, 0 < n → utf8Decode (previous_chunk ++ stream.take n) = none) :
    read_and_decode chunk_size max_window_size stream previous_chunk bytes_read = none :=
  read_and_decode_undecodable chunk_size hcs (max_window_size + 1 - bytes_read)
    max_window_size bytes_read le_rfl stream previous_chunk H

/-- Witness for `c5_undecodable_window_error`: a stream of bare
continuation bytes can never decode, and the reader errors out. -/
theorem c5_undecodable_window_error_witness :
    (0 : Nat) < 1 ∧ read_and_decode 1 2 [128, 128, 128] [] 0 = none :=
  ⟨Nat.one_pos,
   c5_undecodable_window_error 1 2 0 [128, 128, 128] [] Nat.one_pos
     (fun n hn => by
       match n with
       | 0 => exact absurd hn (by decide)
       | 1 => decide
       | 2 => decide
       | n + 3 => rw [List.take_of_length_le (by simp)]; decide)⟩

/-! ## Claim C6 -/

/-- C6: for every decoded text (a sequence of Unicode scalar values), every
chunk size of at least one byte — in particular one smaller than a
multi-byte character, so that the character straddles chunk boundaries and
the truncated-tail decode failure forces the concatenate-and-retry path —
and any window at least the stream length (the regime in which the decode
window is never exhausted; exhaustion is claim C5's subject),
`yield_lines` on the UTF-8 stream yields exactly the newline-separated
segments of the text except the final partial one, which is retained as
the next cycle's prefix and never corrupted. -/
theorem c6_yield_lines_correct (chunk_size max_window_size : Nat)
    (text : List Nat) (hcs : 0 < chunk_size) (hv : ValidText text)
    (hmw : (utf8Encode text).length ≤ max_window_size) :
    yield_lines chunk_size max_window_size (utf8Encode text) =
      some ((splitNl text).dropLast) := by
  unfold yield_lines
  have h := yieldLinesLoop_valid chunk_size max_window_size hcs text.length
    text [] le_rfl hv hmw (by simp)
  simpa using h

/-- Witness for `c6_yield_lines_correct`: the text "é\na" encodes to
`[195, 169, 10, 97]`; with chunk size 1 (smaller than the two-byte é) the
first chunk `[195]` fails to decode and is completed by the retry, and
exactly the line "é" (code point 233) is yielded. -/
theorem c6_yield_lines_correct_witness :
    (0 : Nat) < 1 ∧ ValidText [233, 10, 97] ∧
    (utf8Encode [233, 10, 97]).length ≤ 10 ∧
    utf8Encode [233, 10, 97] = [195, 169, 10, 97] ∧
    (splitNl [233, 10, 97]).dropLast = [[233]] ∧
    yield_lines 1 10 (utf8Encode [233, 10, 97]) =
      some ((splitNl [233, 10, 97]).dropLast) :=
  ⟨Nat.one_pos, by decide, by decide, by decide, by decide,
   c6_yield_lines_correct 1 10 [233, 10, 97] Nat.one_pos (by decide) (by decide)⟩

/-! ## Claim C7 -/

/-- C7 counterexample: not every malformed line increments `error_lines`
and lets the file run to completion.  The inner handler catches only
`(KeyError, json.JSONDecodeError, AttributeError)` (process.py line 180);
a line such as `3` is valid JSON but not an object, so `obj[field]` raises
`TypeError`, which escapes to the outer handler: the file stops with an
error message, `complete` stays false, and `error_lines` stays 0 — not 1
as the claim requires.  Concretely, with one such line between two valid
lines the final record has `error_lines = 0`, `complete = false` and an
error message set. -/
theorem c7_malformed_line_aborts_counterexample :
    ¬ ((process_file ["mentalhealth"]
          (⟨"RS_2020-01.zst", some "out", 100, false, 0, 0, none, 0, 0,
            FileType.SUBMISSION⟩ : FileConfig)
          [ParsedLine.ok "askreddit" 10,
           ParsedLine.hard "TypeError: string indices must be integers" 20,
           ParsedLine.ok "mentalhealth" 30]).1.error_lines = 1 ∧
       (process_file ["mentalhealth"]
          (⟨"RS_2020-01.zst", some "out", 100, false, 0, 0, none, 0, 0,
            FileType.SUBMISSION⟩ : FileConfig)
          [ParsedLine.ok "askreddit" 10,
           ParsedLine.hard "TypeError: string indices must be integers" 20,
           ParsedLine.ok "mentalhealth" 30]).1.complete = true ∧
       (process_file ["mentalhealth"]
          (⟨"RS_2020-01.zst", some "out", 100, false, 0, 0, none, 0, 0,
            FileType.SUBMISSION⟩ : FileConfig)
          [ParsedLine.ok "askreddit" 10,
           ParsedLine.hard "TypeError: string indices must be integers" 20,
           ParsedLine.ok "mentalhealth" 30]).1.error_message = none) := by
  decide

/-- C7 amended: a single malformed line whose failure raises one of the
caught exception types (`KeyError`, `json.JSONDecodeError`,
`AttributeError` — a JSON syntax error, a missing filter field, or a
non-string field value) among otherwise valid lines increments
`error_lines` by exactly one, leaves `lines_matched` exactly as if the
line were absent, and the file still runs to completion with its error
message untouched; a malformed line that parses to a non-object JSON value
instead aborts the file (see the counterexample). -/
theorem c7_soft_error_counted_once (values : List String) (file : FileConfig)
    (g1 g2 : List ParsedLine) (pos : Nat)
    (hg1 : ∀ l ∈ g1, l.isOk = true) (hg2 : ∀ l ∈ g2, l.isOk = true) :
    (process_file values file (g1 ++ ParsedLine.soft pos :: g2)).1.complete = true ∧
    (process_file values file (g1 ++ ParsedLine.soft pos :: g2)).1.error_lines =
      file.error_lines + 1 ∧
    (process_file values file (g1 ++ ParsedLine.soft pos :: g2)).1.error_message =
      file.error_message ∧
    (process_file values file (g1 ++ ParsedLine.soft pos :: g2)).1.lines_matched =
      (process_file values file (g1 ++ g2)).1.lines_matched := by
  have hh1 : ∀ l ∈ g1 ++ ParsedLine.soft pos :: g2, l.isHard = false := by
    intro l hl
    rcases List.mem_append.mp hl with hl | hl
    · exact isHard_false_of_ok (hg1 l hl)
    · rcases List.mem_cons.mp hl with rfl | hl
      · rfl
      · exact isHard_false_of_ok (hg2 l hl)
  have hh2 : ∀ l ∈ g1 ++ g2, l.isHard = false := by
    intro l hl
    rcases List.mem_append.mp hl with hl | hl
    · exact isHard_false_of_ok (hg1 l hl)
    · exact isHard_false_of_ok (hg2 l hl)
  have e1 : (process_file values file (g1 ++ ParsedLine.soft pos :: g2)).1 =
      (process_lines values file (g1 ++ ParsedLine.soft pos :: g2)).1 := rfl
  have e2 : (process_file values file (g1 ++ g2)).1 =
      (process_lines values file (g1 ++ g2)).1 := rfl
  rw [e1, e2, process_lines_no_hard values _ file hh1,
    process_lines_no_hard values _ file hh2]
  refine ⟨rfl, ?_, rfl, ?_⟩
  · have hs : countSoft (g1 ++ ParsedLine.soft pos :: g2) =
        countSoft g1 + 1 + countSoft g2 := by
      unfold countSoft
      rw [List.countP_append, List.countP_cons]
      simp [ParsedLine.isSoft]
      omega
    rw [hs, countSoft_of_ok hg1, countSoft_of_ok hg2]
  · rw [countMatched_middle]

/-- Witness for `c7_soft_error_counted_once` on a fresh record with one
valid matching line, the soft-failing line, and one valid non-matching
line. -/
theorem c7_soft_error_counted_once_witness :
    (∀ l ∈ [ParsedLine.ok "mentalhealth" 1], l.isOk = true) ∧
    (∀ l ∈ [ParsedLine.ok "askreddit" 3], l.isOk = true) ∧
    ((process_file ["mentalhealth"]
        (⟨"RS_2020-01.zst", some "out", 100, false, 0, 0, none, 0, 0,
          FileType.SUBMISSION⟩ : FileConfig)
        ([ParsedLine.ok "mentalhealth" 1] ++ ParsedLine.soft 2 ::
          [ParsedLine.ok "askreddit" 3])).1.complete = true ∧
     (process_file ["mentalhealth"]
        (⟨"RS_2020-01.zst", some "out", 100, false, 0, 0, none, 0, 0,
          FileType.SUBMISSION⟩ : FileConfig)
        ([ParsedLine.ok "mentalhealth" 1] ++ ParsedLine.soft 2 ::
          [ParsedLine.ok "askreddit" 3])).1.error_lines =
       (⟨"RS_2020-01.zst", some "out", 100, false, 0, 0, none, 0, 0,
          FileType.SUBMISSION⟩ : FileConfig).error_lines + 1 ∧
     (process_file ["mentalhealth"]
        (⟨"RS_2020-01.zst", some "out", 100, false, 0, 0, none, 0, 0,
          FileType.SUBMISSION⟩ : FileConfig)
        ([ParsedLine.ok "mentalhealth" 1] ++ ParsedLine.soft 2 ::
          [ParsedLine.ok "askreddit" 3])).1.error_message =
       (⟨"RS_2020-01.zst", some "out", 100, false, 0, 0, none, 0, 0,
          FileType.SUBMISSION⟩ : FileConfig).error_message ∧
     (process_file ["mentalhealth"]
        (⟨"RS_2020-01.zst", some "out", 100, false, 0, 0, none, 0, 0,
          FileType.SUBMISSION⟩ : FileConfig)
        ([ParsedLine.ok "mentalhealth" 1] ++ ParsedLine.soft 2 ::
          [ParsedLine.ok "askreddit" 3])).1.lines_matched =
       (process_file ["mentalhealth"]
          (⟨"RS_2020-01.zst", some "out", 100, false, 0, 0, none, 0, 0,
            FileType.SUBMISSION⟩ : FileConfig)
          ([ParsedLine.ok "mentalhealth" 1] ++
            [ParsedLine.ok "askreddit" 3])).1.lines_matched) :=
  ⟨by decide, by decide,
   c7_soft_error_counted_once ["mentalhealth"]
     (⟨"RS_2020-01.zst", some "out", 100, false, 0, 0, none, 0, 0,
       FileType.SUBMISSION⟩ : FileConfig)
     [ParsedLine.ok "mentalhealth" 1] [ParsedLine.ok "askreddit" 3] 2
     (by decide) (by decide)⟩
